import Mathlib

/-!
Verification of the SentinelGuard repository layer against its specification.

The source under verification consists of the ServiceAccount HTTP route
(`src/routes/service_account_route.rs`), embedded here verbatim as error-message
to status-code mappings, and the ProjectScope repository integration tests
(`tests/integration/repositories/project_scope_repository.rs`).  The repository
implementations themselves are not part of the provided sources, so they are
modelled from the specification (and constrained by the behaviours the tests
assert); each such definition carries a `Modelled from the spec:` doc comment.

Entity ids (UUIDs in the source) are modelled as `Nat`; the store behind the
connection pool is modelled as explicit state (lists of rows) threaded through
each operation; fallible operations return `Except String` carrying the exact
error-message strings the routes and tests match on.
-/

/-- Sort direction, from the spec's sort specification (§3): `Asc` or `Desc`. -/
inductive SortOrder where
  | asc
  | desc
  deriving DecidableEq, Repr

/-- Pagination value: optional `limit` and optional `offset`, both independently
optional (spec §3; mirrors the `Pagination { limit, offset }` used in tests). -/
structure Pagination where
  limit : Option Nat
  offset : Option Nat
  deriving DecidableEq, Repr

/-- `headMatches pat hay` holds when `pat` occurs at the very start of `hay`. -/
def headMatches : List Char → List Char → Bool
  | [], _ => true
  | _ :: _, [] => false
  | p :: ps, h :: hs => p == h && headMatches ps hs

/-- `subOccurs hay pat` holds when `pat` occurs contiguously somewhere in `hay`. -/
def subOccurs : List Char → List Char → Bool
  | [], pat => pat.isEmpty
  | h :: t, pat => headMatches pat (h :: t) || subOccurs t pat

/-- Case-sensitive substring containment on strings (spec §3: string filter
fields use case-sensitive substring containment). -/
def strContains (hay pat : String) : Bool :=
  subOccurs hay.data pat.data

/-- Modelled from the spec: pagination stage of `find` (§4.1).  Absent
pagination returns the full set; offset defaults to 0; absent limit keeps
every remaining row. -/
def applyPagination (pg : Option Pagination) (l : List α) : List α :=
  match pg with
  | none => l
  | some p =>
    let dropped := l.drop (p.offset.getD 0)
    match p.limit with
    | none => dropped
    | some lim => dropped.take lim

/-- Insert `x` into `l` before the first element `y` with `le x y`. -/
def insertLe (le : α → α → Bool) (x : α) : List α → List α
  | [] => [x]
  | y :: ys => if le x y then x :: y :: ys else y :: insertLe le x ys

/-- Insertion sort by a boolean comparison. -/
def sortByLe (le : α → α → Bool) : List α → List α
  | [] => []
  | x :: xs => insertLe le x (sortByLe le xs)

/-- Apply a sort direction to a comparison outcome (§3): descending swaps it. -/
def applyDir : SortOrder → Ordering → Ordering
  | .asc, o => o
  | .desc, o => o.swap

/-- ProjectScope entity (spec §3): id, project_id referencing a Project, a
scope string token, description, enabled flag.  Timestamps are server-managed
metadata not referenced by any verified property and are omitted. -/
structure ProjectScope where
  id : Nat
  project_id : Nat
  scope : String
  description : String
  enabled : Bool
  deriving DecidableEq, Repr

/-- Creation payload for ProjectScope, mirroring `ProjectScopeCreatePayload`
in the tests: project_id, scope, description, enabled. -/
structure ProjectScopeCreatePayload where
  project_id : Nat
  scope : String
  description : String
  enabled : Bool
  deriving DecidableEq, Repr

/-- Update payload for ProjectScope, mirroring `ProjectScopeUpdatePayload` in
the tests: every field optional. -/
structure ProjectScopeUpdatePayload where
  scope : Option String
  description : Option String
  enabled : Option Bool
  deriving DecidableEq, Repr

/-- Filter for ProjectScope `find`, mirroring `ProjectScopeFilter` in the
tests: every field optional; absent field means no constraint. -/
structure ProjectScopeFilter where
  project_id : Option Nat
  scope : Option String
  description : Option String
  enabled : Option Bool
  deriving DecidableEq, Repr

/-- The all-absent ProjectScope filter (`ProjectScopeFilter::default()`). -/
def ProjectScopeFilter.default : ProjectScopeFilter :=
  ⟨none, none, none, none⟩

/-- Sortable fields of ProjectScope, a closed enumeration per entity (§3). -/
inductive ProjectScopeSortableFields where
  | id
  | projectId
  | scope
  | description
  | enabled
  deriving DecidableEq, Repr

/-- One (field, direction) pair of a ProjectScope sort specification. -/
structure ProjectScopeSortOrder where
  field : ProjectScopeSortableFields
  order : SortOrder
  deriving DecidableEq, Repr

/-- The relational store as seen by the ProjectScope repository: the ids of
existing Projects (the external collaborator, §3) and the stored ProjectScope
rows in insertion order. -/
structure ProjectScopeStore where
  projects : List Nat
  scopes : List ProjectScope
  deriving DecidableEq, Repr

/-- Compare two ProjectScope rows on one sortable field. -/
def projectScopeCompareField (f : ProjectScopeSortableFields)
    (a b : ProjectScope) : Ordering :=
  match f with
  | .id => compare a.id b.id
  | .projectId => compare a.project_id b.project_id
  | .scope => compare a.scope b.scope
  | .description => compare a.description b.description
  | .enabled => compare a.enabled b.enabled

/-- Compare two ProjectScope rows by an ordered sequence of (field, direction)
pairs: earlier pairs take precedence, later ones break ties (§3). -/
def projectScopeCompare : List ProjectScopeSortOrder → ProjectScope → ProjectScope → Ordering
  | [], _, _ => .eq
  | s :: rest, a, b =>
    match applyDir s.order (projectScopeCompareField s.field a b) with
    | .eq => projectScopeCompare rest a b
    | o => o

/-- Modelled from the spec: sort stage of `find` (§4.1, §3).  An absent sort
specification keeps the store's stable default order (insertion/primary-key
order, i.e. the stored list as-is); a present one sorts by its pairs. -/
def projectScopeApplySort (sort : Option (List ProjectScopeSortOrder))
    (l : List ProjectScope) : List ProjectScope :=
  match sort with
  | none => l
  | some spec => sortByLe (fun a b => projectScopeCompare spec a b ≠ .gt) l

/-- Modelled from the spec: the per-row filter predicate of ProjectScope
`find` (§3, §4.1).  Absent fields impose no constraint; project_id matches
exactly; scope and description match by case-sensitive substring containment;
enabled matches exactly.  Present fields are AND-combined. -/
def projectScopeMatches (f : ProjectScopeFilter) (s : ProjectScope) : Bool :=
  (match f.project_id with
   | none => true
   | some pid => s.project_id == pid) &&
  (match f.scope with
   | none => true
   | some sc => strContains s.scope sc) &&
  (match f.description with
   | none => true
   | some d => strContains s.description d) &&
  (match f.enabled with
   | none => true
   | some b => s.enabled == b)

namespace ProjectScopeRepository

/-- Modelled from the spec: `ProjectScopeRepository::create` (§4.3, absent
from the provided sources; behaviour fixed by §4.3's check ordering and the
integration tests).  Checks run in order: (1) the referenced Project must
exist, else "Project not found"; (2) the (project_id, scope) pair must be
new, else "Project Id, scope combination already exists"; (3) insert with
the server-assigned id `newId` and return the stored row.  On failure the
store is unchanged. -/
def create (st : ProjectScopeStore) (newId : Nat)
    (p : ProjectScopeCreatePayload) : Except String ProjectScope × ProjectScopeStore :=
  if !(st.projects.contains p.project_id) then
    (.error "Project not found", st)
  else if st.scopes.any (fun s => s.project_id == p.project_id && s.scope == p.scope) then
    (.error "Project Id, scope combination already exists", st)
  else
    let row : ProjectScope :=
      ⟨newId, p.project_id, p.scope, p.description, p.enabled⟩
    (.ok row, ⟨st.projects, st.scopes ++ [row]⟩)

/-- Modelled from the spec: `ProjectScopeRepository::read` (§4.1, absent from
the provided sources; error message fixed by the integration tests): fetch by
primary key, "Project scope not found" if absent. -/
def read (st : ProjectScopeStore) (id : Nat) : Except String ProjectScope :=
  match st.scopes.find? (fun s => s.id == id) with
  | some row => .ok row
  | none => .error "Project scope not found"

/-- Modelled from the spec: `ProjectScopeRepository::update` (§4.1, §4.3,
absent from the provided sources; behaviour fixed by the spec and the
integration tests).  An all-absent payload is a validation failure; a missing
id is not-found; when the scope field is supplied, the (project_id, new scope)
pair is re-checked for uniqueness against the other rows (no self-conflict);
otherwise only the supplied fields change and the post-update row is
returned.  On failure the store is unchanged. -/
def update (st : ProjectScopeStore) (id : Nat)
    (p : ProjectScopeUpdatePayload) : Except String ProjectScope × ProjectScopeStore :=
  if p.scope.isNone && p.description.isNone && p.enabled.isNone then
    (.error "No changes to update", st)
  else
    match st.scopes.find? (fun s => s.id == id) with
    | none => (.error "Project scope not found", st)
    | some old =>
      let newScope := p.scope.getD old.scope
      if p.scope.isSome &&
          st.scopes.any (fun s =>
            s.id != id && s.project_id == old.project_id && s.scope == newScope) then
        (.error "Project Id, scope combination already exists", st)
      else
        let row : ProjectScope :=
          { old with
            scope := newScope
            description := p.description.getD old.description
            enabled := p.enabled.getD old.enabled }
        (.ok row, ⟨st.projects, st.scopes.map (fun s => if s.id == id then row else s)⟩)

/-- Modelled from the spec: `ProjectScopeRepository::delete` (§4.1, absent
from the provided sources; behaviour fixed by the integration tests, which
assert that deleting an existing row yields `true` and deleting a missing id
FAILS with "Project scope not found" — this entity adopts the NotFound
variant named in §9's open question, not the boolean variant). -/
def delete (st : ProjectScopeStore) (id : Nat) : Except String Bool × ProjectScopeStore :=
  if st.scopes.any (fun s => s.id == id) then
    (.ok true, ⟨st.projects, st.scopes.filter (fun s => s.id != id)⟩)
  else
    (.error "Project scope not found", st)

/-- Modelled from the spec: `ProjectScopeRepository::find` (§4.1, absent from
the provided sources): applies the filter predicates, then the sort, then the
pagination, in that fixed order; absent pagination returns the full matching
set. -/
def find (st : ProjectScopeStore) (f : ProjectScopeFilter)
    (sort : Option (List ProjectScopeSortOrder))
    (pg : Option Pagination) : List ProjectScope :=
  applyPagination pg (projectScopeApplySort sort (st.scopes.filter (projectScopeMatches f)))

end ProjectScopeRepository

/-- ServiceAccount entity (spec §3): id, globally unique name, globally unique
email, description, enabled flag.  Timestamps are server-managed metadata not
referenced by any verified property and are omitted. -/
structure ServiceAccount where
  id : Nat
  name : String
  email : String
  description : String
  enabled : Bool
  deriving DecidableEq, Repr

/-- Creation payload for ServiceAccount (`ServiceAccountCreatePayload`). -/
structure ServiceAccountCreatePayload where
  name : String
  email : String
  description : String
  enabled : Bool
  deriving DecidableEq, Repr

/-- Update payload for ServiceAccount (`ServiceAccountUpdatePayload`): every
field optional, partial-update semantics (spec §4.1, §9). -/
structure ServiceAccountUpdatePayload where
  name : Option String
  email : Option String
  description : Option String
  enabled : Option Bool
  deriving DecidableEq, Repr

/-- The relational store as seen by the ServiceAccount repository: the stored
rows in insertion order. -/
structure ServiceAccountStore where
  accounts : List ServiceAccount
  deriving DecidableEq, Repr

/-- Filter for ServiceAccount `find`, mirroring `ServiceAccountFilter` as the
list route's query parameters expose it: optional name, description, enabled;
absent field means no constraint. -/
structure ServiceAccountFilter where
  name : Option String
  description : Option String
  enabled : Option Bool
  deriving DecidableEq, Repr

/-- The all-absent ServiceAccount filter. -/
def ServiceAccountFilter.default : ServiceAccountFilter :=
  ⟨none, none, none⟩

/-- Sortable fields of ServiceAccount, a closed enumeration per entity (§3;
the creation timestamp is server-managed metadata omitted together with the
timestamps). -/
inductive ServiceAccountSortableFields where
  | id
  | name
  | email
  deriving DecidableEq, Repr

/-- One (field, direction) pair of a ServiceAccount sort specification
(`ServiceAccountSortOrder`; the list route builds `[(Id, Asc)]`). -/
structure ServiceAccountSortOrder where
  field : ServiceAccountSortableFields
  order : SortOrder
  deriving DecidableEq, Repr

/-- Compare two ServiceAccount rows on one sortable field. -/
def serviceAccountCompareField (f : ServiceAccountSortableFields)
    (a b : ServiceAccount) : Ordering :=
  match f with
  | .id => compare a.id b.id
  | .name => compare a.name b.name
  | .email => compare a.email b.email

/-- Compare two ServiceAccount rows by an ordered sequence of (field,
direction) pairs: earlier pairs take precedence, later ones break ties (§3). -/
def serviceAccountCompare : List ServiceAccountSortOrder → ServiceAccount → ServiceAccount → Ordering
  | [], _, _ => .eq
  | s :: rest, a, b =>
    match applyDir s.order (serviceAccountCompareField s.field a b) with
    | .eq => serviceAccountCompare rest a b
    | o => o

/-- Modelled from the spec: sort stage of ServiceAccount `find` (§4.1, §3).
An absent sort specification keeps the store's stable default order
(insertion/primary-key order); a present one sorts by its pairs. -/
def serviceAccountApplySort (sort : Option (List ServiceAccountSortOrder))
    (l : List ServiceAccount) : List ServiceAccount :=
  match sort with
  | none => l
  | some spec => sortByLe (fun a b => serviceAccountCompare spec a b ≠ .gt) l

/-- Modelled from the spec: the per-row filter predicate of ServiceAccount
`find` (§3, §4.1).  Absent fields impose no constraint; name and description
match by case-sensitive substring containment; enabled matches exactly.
Present fields are AND-combined. -/
def serviceAccountMatches (f : ServiceAccountFilter) (a : ServiceAccount) : Bool :=
  (match f.name with
   | none => true
   | some n => strContains a.name n) &&
  (match f.description with
   | none => true
   | some d => strContains a.description d) &&
  (match f.enabled with
   | none => true
   | some b => a.enabled == b)

namespace ServiceAccountRepository

/-- Modelled from the spec: `ServiceAccountRepository::create` (§4.2, absent
from the provided sources; conflict messages fixed by the route's matching).
Checks name uniqueness, then email uniqueness, then inserts with the
server-assigned id `newId`.  On failure the store is unchanged. -/
def create (st : ServiceAccountStore) (newId : Nat)
    (p : ServiceAccountCreatePayload) : Except String ServiceAccount × ServiceAccountStore :=
  if st.accounts.any (fun a => a.name == p.name) then
    (.error "Service account name already exists", st)
  else if st.accounts.any (fun a => a.email == p.email) then
    (.error "Service account email already exists", st)
  else
    let row : ServiceAccount := ⟨newId, p.name, p.email, p.description, p.enabled⟩
    (.ok row, ⟨st.accounts ++ [row]⟩)

/-- Modelled from the spec: `ServiceAccountRepository::read` (§4.1, absent
from the provided sources): fetch by primary key, "Service account not found"
if absent. -/
def read (st : ServiceAccountStore) (id : Nat) : Except String ServiceAccount :=
  match st.accounts.find? (fun a => a.id == id) with
  | some row => .ok row
  | none => .error "Service account not found"

/-- Modelled from the spec: `ServiceAccountRepository::update` (§4.1, §4.2,
absent from the provided sources; error messages fixed by the route's
matching).  An all-absent payload is a validation failure; a missing id is
not-found; a supplied name (resp. email) is re-checked for uniqueness against
the other rows only (no self-conflict, §8); otherwise only the supplied
fields change and the post-update row is returned.  On failure the store is
unchanged. -/
def update (st : ServiceAccountStore) (id : Nat)
    (p : ServiceAccountUpdatePayload) : Except String ServiceAccount × ServiceAccountStore :=
  if p.name.isNone && p.email.isNone && p.description.isNone && p.enabled.isNone then
    (.error "No changes to update", st)
  else
    match st.accounts.find? (fun a => a.id == id) with
    | none => (.error "Service account not found", st)
    | some old =>
      let newName := p.name.getD old.name
      let newEmail := p.email.getD old.email
      if p.name.isSome && st.accounts.any (fun a => a.id != id && a.name == newName) then
        (.error "Service account name already exists", st)
      else if p.email.isSome && st.accounts.any (fun a => a.id != id && a.email == newEmail) then
        (.error "Service account email already exists", st)
      else
        let row : ServiceAccount :=
          { old with
            name := newName
            email := newEmail
            description := p.description.getD old.description
            enabled := p.enabled.getD old.enabled }
        (.ok row, ⟨st.accounts.map (fun a => if a.id == id then row else a)⟩)

/-- Modelled from the spec: `ServiceAccountRepository::delete` (§4.1, absent
from the provided sources; the route's handling of `Ok(true)`/`Ok(false)`
fixes the contract): returns `true` when a row existed and was removed,
`false` — a successful result, not an error — when no such row existed.
This entity adopts the boolean variant named in §9's open question. -/
def delete (st : ServiceAccountStore) (id : Nat) : Except String Bool × ServiceAccountStore :=
  if st.accounts.any (fun a => a.id == id) then
    (.ok true, ⟨st.accounts.filter (fun a => a.id != id)⟩)
  else
    (.ok false, st)

/-- Modelled from the spec: `ServiceAccountRepository::find` (§4.1, absent
from the provided sources; invoked by the list route in src/ with a
name/description/enabled filter, an `[(Id, Asc)]` sort and pagination):
applies the filter predicates, then the sort, then the pagination, in that
fixed order; absent pagination returns the full matching set. -/
def find (st : ServiceAccountStore) (f : ServiceAccountFilter)
    (sort : Option (List ServiceAccountSortOrder))
    (pg : Option Pagination) : List ServiceAccount :=
  applyPagination pg (serviceAccountApplySort sort (st.accounts.filter (serviceAccountMatches f)))

end ServiceAccountRepository

namespace ServiceAccountRoute

/-- From `src/routes/service_account_route.rs`, `post`: the create result is
mapped with `map_err(ErrorBadRequest)` — every repository failure becomes
HTTP 400 — and success becomes `HttpResponse::Created()`, HTTP 201. -/
def post (result : Except String ServiceAccount) : Nat :=
  match result with
  | .ok _ => 201
  | .error _ => 400

/-- From `src/routes/service_account_route.rs`, `get`: the read result is
mapped with `map_err(ErrorNotFound)` — every repository failure becomes
HTTP 404 — and success becomes `HttpResponse::Ok()`, HTTP 200. -/
def get (result : Except String ServiceAccount) : Nat :=
  match result with
  | .ok _ => 200
  | .error _ => 404

/-- From `src/routes/service_account_route.rs`, `patch`: on failure the route
matches the error's message string: "No changes to update" → 400 (BadRequest),
"Service account not found" → 404 (NotFound), "Service account name already
exists" → 409 (Conflict), "Service account email already exists" → 409
(Conflict), anything else → 500 (InternalServerError); success → 200. -/
def patch (result : Except String ServiceAccount) : Nat :=
  match result with
  | .ok _ => 200
  | .error msg =>
    match msg with
    | "No changes to update" => 400
    | "Service account not found" => 404
    | "Service account name already exists" => 409
    | "Service account email already exists" => 409
    | _ => 500

/-- From `src/routes/service_account_route.rs`, `delete`: `Ok(true)` → 204
(NoContent), `Ok(false)` → 404 (ErrorNotFound "Service account not found"),
`Err(_)` → 500 (InternalServerError). -/
def delete (result : Except String Bool) : Nat :=
  match result with
  | .ok true => 204
  | .ok false => 404
  | .error _ => 500

end ServiceAccountRoute

/-- Claim C1: ProjectScope `create` performs its checks in a fixed order:
first the project-existence check, failing with exactly "Project not found"
and inserting nothing; only then the (project_id, scope) uniqueness check,
failing with exactly "Project Id, scope combination already exists" and
inserting nothing; only when both pass is the row inserted. -/
theorem projectScope_create_check_order (st : ProjectScopeStore) (newId : Nat)
    (p : ProjectScopeCreatePayload) :
    (st.projects.contains p.project_id = false →
      ProjectScopeRepository.create st newId p = (.error "Project not found", st)) ∧
    (st.projects.contains p.project_id = true →
      st.scopes.any (fun s => s.project_id == p.project_id && s.scope == p.scope) = true →
      ProjectScopeRepository.create st newId p
        = (.error "Project Id, scope combination already exists", st)) ∧
    (st.projects.contains p.project_id = true →
      st.scopes.any (fun s => s.project_id == p.project_id && s.scope == p.scope) = false →
      ProjectScopeRepository.create st newId p
        = (.ok ⟨newId, p.project_id, p.scope, p.description, p.enabled⟩,
           ⟨st.projects,
            st.scopes ++ [⟨newId, p.project_id, p.scope, p.description, p.enabled⟩]⟩)) := by
  refine ⟨fun h => ?_, fun h hdup => ?_, fun h hdup => ?_⟩ <;>
    simp_all [ProjectScopeRepository.create]

/-- Witness for C1 at concrete stores: a missing project, a duplicated
(project_id, scope) pair, and a clean insert. -/
theorem projectScope_create_check_order_witness :
    ProjectScopeRepository.create ⟨[], []⟩ 7 ⟨5, "a:r", "d", true⟩
        = (.error "Project not found", ⟨[], []⟩) ∧
    ProjectScopeRepository.create ⟨[5], [⟨1, 5, "a:r", "x", true⟩]⟩ 7 ⟨5, "a:r", "d", true⟩
        = (.error "Project Id, scope combination already exists",
           ⟨[5], [⟨1, 5, "a:r", "x", true⟩]⟩) ∧
    ProjectScopeRepository.create ⟨[5], []⟩ 7 ⟨5, "a:r", "d", true⟩
        = (.ok ⟨7, 5, "a:r", "d", true⟩, ⟨[5], [⟨7, 5, "a:r", "d", true⟩]⟩) :=
  ⟨(projectScope_create_check_order ⟨[], []⟩ 7 ⟨5, "a:r", "d", true⟩).1 (by decide),
   (projectScope_create_check_order ⟨[5], [⟨1, 5, "a:r", "x", true⟩]⟩ 7
      ⟨5, "a:r", "d", true⟩).2.1 (by decide) (by decide),
   (projectScope_create_check_order ⟨[5], []⟩ 7 ⟨5, "a:r", "d", true⟩).2.2
      (by decide) (by decide)⟩

/-- Counterexample to C2 as stated: `ProjectScopeRepository::delete` on a
missing id does fail with a not-found error ("Project scope not found")
rather than returning `false`, exactly as the integration test
`test_project_scope_delete_nonexisting_scope_fails` asserts. -/
theorem projectScope_delete_missing_id_errors :
    ProjectScopeRepository.delete ⟨[], []⟩ 1
      = (.error "Project scope not found", ⟨[], []⟩) := rfl

/-- Claim C2 (amended): the delete contract is per-entity, not uniform.
`ServiceAccountRepository::delete` returns `true` when a row existed and was
removed and `Ok(false)` — a success, not an error — when none existed (the
route turns that `false` into 404); `ProjectScopeRepository::delete` returns
`true` when a row existed and was removed but fails with the error
"Project scope not found" when no such row existed. -/
theorem delete_contract_per_entity (sa : ServiceAccountStore)
    (ps : ProjectScopeStore) (id : Nat) :
    (sa.accounts.any (fun a => a.id == id) = true →
      (ServiceAccountRepository.delete sa id)
        = (.ok true, ⟨sa.accounts.filter (fun a => a.id != id)⟩)) ∧
    (sa.accounts.any (fun a => a.id == id) = false →
      ServiceAccountRepository.delete sa id = (.ok false, sa)) ∧
    (ps.scopes.any (fun s => s.id == id) = true →
      ProjectScopeRepository.delete ps id
        = (.ok true, ⟨ps.projects, ps.scopes.filter (fun s => s.id != id)⟩)) ∧
    (ps.scopes.any (fun s => s.id == id) = false →
      ProjectScopeRepository.delete ps id = (.error "Project scope not found", ps)) ∧
    ServiceAccountRoute.delete (.ok false) = 404 := by
  refine ⟨fun h => ?_, fun h => ?_, fun h => ?_, fun h => ?_, rfl⟩ <;>
    simp [ServiceAccountRepository.delete, ProjectScopeRepository.delete, h]

/-- Witness for C2's amended theorem at concrete stores (one row present and
an empty store, for each entity). -/
theorem delete_contract_per_entity_witness :
    ServiceAccountRepository.delete ⟨[⟨1, "n", "e", "d", true⟩]⟩ 1 = (.ok true, ⟨[]⟩) ∧
    ServiceAccountRepository.delete ⟨[]⟩ 1 = (.ok false, ⟨[]⟩) ∧
    ProjectScopeRepository.delete ⟨[5], [⟨1, 5, "a:r", "d", true⟩]⟩ 1 = (.ok true, ⟨[5], []⟩) ∧
    ProjectScopeRepository.delete ⟨[5], []⟩ 1 = (.error "Project scope not found", ⟨[5], []⟩) :=
  ⟨(delete_contract_per_entity ⟨[⟨1, "n", "e", "d", true⟩]⟩ ⟨[5], []⟩ 1).1 (by decide),
   (delete_contract_per_entity ⟨[]⟩ ⟨[5], []⟩ 1).2.1 (by decide),
   (delete_contract_per_entity ⟨[]⟩ ⟨[5], [⟨1, 5, "a:r", "d", true⟩]⟩ 1).2.2.1 (by decide),
   (delete_contract_per_entity ⟨[]⟩ ⟨[5], []⟩ 1).2.2.2.1 (by decide)⟩

/-- Claim C3: the ServiceAccount PATCH route maps a failing update to a
status determined solely by the error's message string: the validation
message produced by an all-absent payload to 400, the not-found message to
404, the two conflict messages to 409, and every other message to 500. -/
theorem patch_status_by_message (msg : String) (st : ServiceAccountStore) (id : Nat) :
    (ServiceAccountRepository.update st id ⟨none, none, none, none⟩).1
        = .error "No changes to update" ∧
    ServiceAccountRoute.patch (.error "No changes to update") = 400 ∧
    ServiceAccountRoute.patch (.error "Service account not found") = 404 ∧
    ServiceAccountRoute.patch (.error "Service account name already exists") = 409 ∧
    ServiceAccountRoute.patch (.error "Service account email already exists") = 409 ∧
    (msg ≠ "No changes to update" → msg ≠ "Service account not found" →
      msg ≠ "Service account name already exists" →
      msg ≠ "Service account email already exists" →
      ServiceAccountRoute.patch (.error msg) = 500) := by
  refine ⟨rfl, rfl, rfl, rfl, rfl, fun h1 h2 h3 h4 => ?_⟩
  simp only [ServiceAccountRoute.patch]

/-- Witness for C3 at a concrete unclassified message. -/
theorem patch_status_by_message_witness :
    (ServiceAccountRepository.update ⟨[]⟩ 0 ⟨none, none, none, none⟩).1
        = .error "No changes to update" ∧
    ServiceAccountRoute.patch (.error "No changes to update") = 400 ∧
    ServiceAccountRoute.patch (.error "Service account not found") = 404 ∧
    ServiceAccountRoute.patch (.error "Service account name already exists") = 409 ∧
    ServiceAccountRoute.patch (.error "Service account email already exists") = 409 ∧
    ServiceAccountRoute.patch (.error "database gone") = 500 := by
  have h := patch_status_by_message "database gone" ⟨[]⟩ 0
  exact ⟨h.1, h.2.1, h.2.2.1, h.2.2.2.1, h.2.2.2.2.1,
         h.2.2.2.2.2 (by decide) (by decide) (by decide) (by decide)⟩

/-- Counterexample to C4 as stated: the POST route maps a name-uniqueness
Conflict failure on create to 400, not 409 — the source wraps every create
failure in `ErrorBadRequest`. -/
theorem post_conflict_maps_to_400 :
    ServiceAccountRoute.post (.error "Service account name already exists") = 400 ∧
    (400 : Nat) ≠ 409 := ⟨rfl, by decide⟩

/-- Claim C4 (amended): the POST route maps every failing ServiceAccount
create — uniqueness conflicts included — to HTTP 400, and success to 201. -/
theorem post_maps_every_failure_to_400 (msg : String) (e : ServiceAccount) :
    ServiceAccountRoute.post (.error msg) = 400 ∧
    ServiceAccountRoute.post (.ok e) = 201 := ⟨rfl, rfl⟩

/-- Counterexample to C5 as stated: the GET-by-id route maps a read failure
that is an underlying store error (not a missing row) to 404, not 500 — the
source wraps every read failure in `ErrorNotFound`. -/
theorem get_internal_error_maps_to_404 :
    ServiceAccountRoute.get (.error "connection reset by peer") = 404 ∧
    (404 : Nat) ≠ 500 := ⟨rfl, by decide⟩

/-- Claim C5 (amended): the GET-by-id route does not distinguish a missing
row from an internal store failure: every read failure is mapped to HTTP 404
and success to 200. -/
theorem get_maps_every_failure_to_404 (msg : String) (e : ServiceAccount) :
    ServiceAccountRoute.get (.error msg) = 404 ∧
    ServiceAccountRoute.get (.ok e) = 200 := ⟨rfl, rfl⟩

/-- Counterexample to C6 as stated: the validation failure raised by an
all-absent update payload carries the exact message "No changes to update"
(capital N) — the string the PATCH route matches for its 400 mapping — which
is not the string "no changes to update" the claim names. -/
theorem update_all_absent_message_capitalized :
    (ServiceAccountRepository.update ⟨[]⟩ 1 ⟨none, none, none, none⟩).1
        = .error "No changes to update" ∧
    ("No changes to update" : String) ≠ "no changes to update" := ⟨rfl, by decide⟩

/-- Claim C6 (amended): for both entities, an update whose payload has every
field absent fails with a validation error whose exact message is
"No changes to update" (capital N), the store is left unchanged, and the
route maps that message to 400. -/
theorem update_all_absent_fails_validation (sa : ServiceAccountStore)
    (ps : ProjectScopeStore) (idA idP : Nat) :
    ServiceAccountRepository.update sa idA ⟨none, none, none, none⟩
        = (.error "No changes to update", sa) ∧
    ProjectScopeRepository.update ps idP ⟨none, none, none⟩
        = (.error "No changes to update", ps) ∧
    ServiceAccountRoute.patch (.error "No changes to update") = 400 := ⟨rfl, rfl, rfl⟩

/-- Claim C7: for both entities, whenever an update supplying exactly one
field returns a post-update entity, that entity has the supplied field set to
the supplied value and every other field equal to its pre-update value —
covering ProjectScope's three updatable fields and ServiceAccount's four. -/
theorem update_single_field_frame (ps : ProjectScopeStore) (sa : ServiceAccountStore)
    (idP idA : Nat) (oldP : ProjectScope) (oldA : ServiceAccount)
    (hP : ps.scopes.find? (fun s => s.id == idP) = some oldP)
    (hA : sa.accounts.find? (fun a => a.id == idA) = some oldA) :
    (∀ ns e, (ProjectScopeRepository.update ps idP ⟨some ns, none, none⟩).1 = .ok e →
      e.scope = ns ∧ e.description = oldP.description ∧ e.enabled = oldP.enabled ∧
      e.id = oldP.id ∧ e.project_id = oldP.project_id) ∧
    (∀ d e, (ProjectScopeRepository.update ps idP ⟨none, some d, none⟩).1 = .ok e →
      e.description = d ∧ e.scope = oldP.scope ∧ e.enabled = oldP.enabled ∧
      e.id = oldP.id ∧ e.project_id = oldP.project_id) ∧
    (∀ b e, (ProjectScopeRepository.update ps idP ⟨none, none, some b⟩).1 = .ok e →
      e.enabled = b ∧ e.scope = oldP.scope ∧ e.description = oldP.description ∧
      e.id = oldP.id ∧ e.project_id = oldP.project_id) ∧
    (∀ n e, (ServiceAccountRepository.update sa idA ⟨some n, none, none, none⟩).1 = .ok e →
      e.name = n ∧ e.email = oldA.email ∧ e.description = oldA.description ∧
      e.enabled = oldA.enabled ∧ e.id = oldA.id) ∧
    (∀ em e, (ServiceAccountRepository.update sa idA ⟨none, some em, none, none⟩).1 = .ok e →
      e.email = em ∧ e.name = oldA.name ∧ e.description = oldA.description ∧
      e.enabled = oldA.enabled ∧ e.id = oldA.id) ∧
    (∀ d e, (ServiceAccountRepository.update sa idA ⟨none, none, some d, none⟩).1 = .ok e →
      e.description = d ∧ e.name = oldA.name ∧ e.email = oldA.email ∧
      e.enabled = oldA.enabled ∧ e.id = oldA.id) ∧
    (∀ b e, (ServiceAccountRepository.update sa idA ⟨none, none, none, some b⟩).1 = .ok e →
      e.enabled = b ∧ e.name = oldA.name ∧ e.email = oldA.email ∧
      e.description = oldA.description ∧ e.id = oldA.id) := by
  refine ⟨fun ns e h => ?_, fun d e h => ?_, fun b e h => ?_,
          fun n e h => ?_, fun em e h => ?_, fun d e h => ?_, fun b e h => ?_⟩ <;>
  · simp only [ProjectScopeRepository.update, ServiceAccountRepository.update,
      Option.isNone_some, Option.isNone_none, Bool.false_and, Bool.and_false,
      Bool.true_and, Bool.and_true, Bool.false_eq_true, if_false, hP, hA,
      Option.isSome_some, Option.isSome_none, Option.getD_some, Option.getD_none] at h
    first
    | (split at h
       · exact absurd h (by simp)
       · cases h
         simp)
    | (cases h; simp)

/-- Witness for C7: one-row stores for both entities, updating only the
description of each. -/
theorem update_single_field_frame_witness :
    ((⟨1, 5, "a:r", "x", true⟩ : ProjectScope).description = "x" ∧
     (⟨1, 5, "a:r", "x", true⟩ : ProjectScope).scope = "a:r" ∧
     (⟨1, 5, "a:r", "x", true⟩ : ProjectScope).enabled = true ∧
     (⟨1, 5, "a:r", "x", true⟩ : ProjectScope).id = 1 ∧
     (⟨1, 5, "a:r", "x", true⟩ : ProjectScope).project_id = 5) ∧
    ((⟨2, "n", "e", "y", true⟩ : ServiceAccount).description = "y" ∧
     (⟨2, "n", "e", "y", true⟩ : ServiceAccount).name = "n" ∧
     (⟨2, "n", "e", "y", true⟩ : ServiceAccount).email = "e" ∧
     (⟨2, "n", "e", "y", true⟩ : ServiceAccount).enabled = true ∧
     (⟨2, "n", "e", "y", true⟩ : ServiceAccount).id = 2) := by
  have h := update_single_field_frame ⟨[5], [⟨1, 5, "a:r", "d", true⟩]⟩
    ⟨[⟨2, "n", "e", "d", true⟩]⟩ 1 2 ⟨1, 5, "a:r", "d", true⟩ ⟨2, "n", "e", "d", true⟩
    (by decide) (by decide)
  exact ⟨h.2.1 "x" ⟨1, 5, "a:r", "x", true⟩ rfl,
         h.2.2.2.2.2.1 "y" ⟨2, "n", "e", "y", true⟩ rfl⟩

/-- Claim C9: for both entities, `find` with no filter, no sort, and no
pagination returns all stored rows, in the store's deterministic default
(insertion) order. -/
theorem find_default_returns_all (ps : ProjectScopeStore) (sa : ServiceAccountStore) :
    ProjectScopeRepository.find ps ProjectScopeFilter.default none none = ps.scopes ∧
    ServiceAccountRepository.find sa ServiceAccountFilter.default none none = sa.accounts := by
  constructor <;>
    simp [ProjectScopeRepository.find, ServiceAccountRepository.find, applyPagination,
      projectScopeApplySort, serviceAccountApplySort, ProjectScopeFilter.default,
      ServiceAccountFilter.default, projectScopeMatches, serviceAccountMatches]

/-- The boolean filter predicate, unfolded: a row matches iff every present
field constrains it as the spec says (exact match for project_id and enabled,
case-sensitive substring containment for scope and description). -/
theorem projectScopeMatches_eq_true_iff (f : ProjectScopeFilter) (e : ProjectScope) :
    projectScopeMatches f e = true ↔
      (∀ pid, f.project_id = some pid → e.project_id = pid) ∧
      (∀ sc, f.scope = some sc → strContains e.scope sc = true) ∧
      (∀ d, f.description = some d → strContains e.description d = true) ∧
      (∀ b, f.enabled = some b → e.enabled = b) := by
  obtain ⟨pid?, sc?, d?, b?⟩ := f
  cases pid? <;> cases sc? <;> cases d? <;> cases b? <;>
    simp [projectScopeMatches, Bool.and_eq_true, beq_iff_eq, and_assoc]

/-- The boolean ServiceAccount filter predicate, unfolded: a row matches iff
every present field constrains it as the spec says (case-sensitive substring
containment for name and description, exact match for enabled). -/
theorem serviceAccountMatches_eq_true_iff (f : ServiceAccountFilter) (a : ServiceAccount) :
    serviceAccountMatches f a = true ↔
      (∀ n, f.name = some n → strContains a.name n = true) ∧
      (∀ d, f.description = some d → strContains a.description d = true) ∧
      (∀ b, f.enabled = some b → a.enabled = b) := by
  obtain ⟨n?, d?, b?⟩ := f
  cases n? <;> cases d? <;> cases b? <;>
    simp [serviceAccountMatches, Bool.and_eq_true, beq_iff_eq, and_assoc]

/-- Claim C10: for both entities, membership in a `find` result (no sort, no
pagination) is exactly: the row is stored, its id/reference and boolean
filter fields equal any supplied values exactly, and its string filter fields
(scope, description, name) contain any supplied values as case-sensitive
substrings; absent fields impose no constraint. -/
theorem find_filter_semantics (ps : ProjectScopeStore) (sa : ServiceAccountStore)
    (fP : ProjectScopeFilter) (fA : ServiceAccountFilter)
    (e : ProjectScope) (a : ServiceAccount) :
    (e ∈ ProjectScopeRepository.find ps fP none none ↔
      e ∈ ps.scopes ∧
      (∀ pid, fP.project_id = some pid → e.project_id = pid) ∧
      (∀ sc, fP.scope = some sc → strContains e.scope sc = true) ∧
      (∀ d, fP.description = some d → strContains e.description d = true) ∧
      (∀ b, fP.enabled = some b → e.enabled = b)) ∧
    (a ∈ ServiceAccountRepository.find sa fA none none ↔
      a ∈ sa.accounts ∧
      (∀ n, fA.name = some n → strContains a.name n = true) ∧
      (∀ d, fA.description = some d → strContains a.description d = true) ∧
      (∀ b, fA.enabled = some b → a.enabled = b)) := by
  refine ⟨?_, ?_⟩
  · rw [ProjectScopeRepository.find]
    simp only [applyPagination, projectScopeApplySort, List.mem_filter,
      projectScopeMatches_eq_true_iff, and_assoc]
  · rw [ServiceAccountRepository.find]
    simp only [applyPagination, serviceAccountApplySort, List.mem_filter,
      serviceAccountMatches_eq_true_iff, and_assoc]

/-- Witness for C10: filters with every field present select, for each
entity, a stored row satisfying each constraint. -/
theorem find_filter_semantics_witness :
    ((⟨1, 5, "ab:read", "Read access", true⟩ : ProjectScope) ∈
      ProjectScopeRepository.find ⟨[5], [⟨1, 5, "ab:read", "Read access", true⟩]⟩
        ⟨some 5, some "read", some "access", some true⟩ none none) ∧
    ((⟨2, "svc-main", "svc@example", "Main account", true⟩ : ServiceAccount) ∈
      ServiceAccountRepository.find ⟨[⟨2, "svc-main", "svc@example", "Main account", true⟩]⟩
        ⟨some "main", some "Main", some true⟩ none none) := by
  have h := find_filter_semantics ⟨[5], [⟨1, 5, "ab:read", "Read access", true⟩]⟩
    ⟨[⟨2, "svc-main", "svc@example", "Main account", true⟩]⟩
    ⟨some 5, some "read", some "access", some true⟩ ⟨some "main", some "Main", some true⟩
    ⟨1, 5, "ab:read", "Read access", true⟩ ⟨2, "svc-main", "svc@example", "Main account", true⟩
  refine ⟨h.1.mpr ⟨by decide, ?_, ?_, ?_, ?_⟩, h.2.mpr ⟨by decide, ?_, ?_, ?_⟩⟩ <;>
  · intro x hx
    cases hx
    decide
